import Mathlib

/-!
Verification of the language-switcher subsystem of the next-static-web
repository, shallowly embedded in Lean 4.

Embedded sources:
* src/shared/ui/langswitcher/contract/contract.ts (data model and buildLanguageView)
* src/shared/ui/langswitcher/LanguageSwitcher.tsx (event handlers and the
  outside-click effect lifecycle)
* src/shared/lib/utils/browser.tsx (environment-detection helpers)

JavaScript records of type Record(string, LocaleData) are modelled as
association lists in insertion order; thrown errors become the error case of
Except; JS string operations (toLowerCase, includes, split) are modelled by
executable Lean functions with matching semantics on the typed fragment
actually exercised by the code.
-/

namespace NextStaticWeb

/-- Model of JS startsWith at the head of a character list: true when the
second list is an initial run of the first. -/
def beginsWith : List Char → List Char → Bool
  | _, [] => true
  | [], _ :: _ => false
  | c :: s, p :: ps => (c == p) && beginsWith s ps

/-- Model of JS String.prototype.includes on character lists: true when the
second list occurs contiguously inside the first (the empty needle always
matches, as in JS). -/
def containsSub : List Char → List Char → Bool
  | [], p => beginsWith [] p
  | s@(_ :: t), p => beginsWith s p || containsSub t p

/-- JS s.includes(sub), on Lean strings. -/
def strIncludes (s sub : String) : Bool :=
  containsSub s.toList sub.toList

/-- JS String.prototype.toLowerCase, modelled as the per-character case
mapping of Char.toLower over the underlying character list. -/
def jsToLower (s : String) : String :=
  ⟨s.data.map Char.toLower⟩

/-- JS String.prototype.split with a single-character separator, on
character lists: splitting the empty list gives one empty group, and every
separator occurrence starts a new group. -/
def splitOnChar (sep : Char) : List Char → List (List Char)
  | [] => [[]]
  | c :: rest =>
      if c == sep then [] :: splitOnChar sep rest
      else
        match splitOnChar sep rest with
        | [] => [[c]]
        | g :: gs => (c :: g) :: gs

/-- JS pathname.split with separator slash, on Lean strings. -/
def jsSplitSlash (s : String) : List String :=
  (splitOnChar '/' s.data).map (fun cs => ⟨cs⟩)

/-- LocaleData from contract.ts: all the information needed to display and
format content for a specific language. -/
structure LocaleData where
  name : String
  nativeName : String
  flag : String
  rtl : Bool
  dateFormat : String
  numberFormat : String
deriving Repr, DecidableEq, Inhabited

/-- LanguageItem from contract.ts: a single selectable language option. -/
structure LanguageItem where
  code : String
  label : String
  flag : String
  isActive : Bool
deriving Repr, DecidableEq, Inhabited

/-- The trigger part of LanguageView from contract.ts. -/
structure TriggerView where
  label : String
  flag : String
  isOpen : Bool
deriving Repr, DecidableEq, Inhabited

/-- The search part of LanguageView from contract.ts. -/
structure SearchView where
  placeholder : String
  value : String
deriving Repr, DecidableEq, Inhabited

/-- LanguageView from contract.ts: the complete view model for the
language-switcher component. -/
structure LanguageView where
  trigger : TriggerView
  search : SearchView
  items : List LanguageItem
  filteredItems : List LanguageItem
deriving Repr, DecidableEq, Inhabited

/-- LanguageSwitcherConfig from contract.ts. The locales record is an
association list in insertion order; the optional fields carry the defaults
that the destructuring in buildLanguageView supplies (searchValue '',
isOpen false, searchPlaceholder 'Search'). triggerLabel is declared in the
TS type but never read by buildLanguageView. -/
structure LanguageSwitcherConfig where
  locales : List (String × LocaleData)
  currentLocale : String
  searchValue : String := ""
  isOpen : Bool := false
  triggerLabel : Option String := none
  searchPlaceholder : String := "Search"
deriving Repr, DecidableEq, Inhabited

/-- buildLanguageView from contract.ts. Throwing becomes Except.error with
the thrown message. JS truthiness on the strings involved is emptiness:
the locales record is non-null in the typed model, so the first check is
key-set emptiness; falsy currentLocale is the empty string; the lookup of
currentLocale is falsy exactly when the key is absent; nativeName and
searchValue are falsy exactly when empty. -/
def buildLanguageView (config : LanguageSwitcherConfig) : Except String LanguageView :=
  let locales := config.locales
  let currentLocale := config.currentLocale
  let searchValue := config.searchValue
  let isOpen := config.isOpen
  let searchPlaceholder := config.searchPlaceholder
  if locales.isEmpty then
    .error "Locales configuration is required and cannot be empty"
  else if currentLocale.isEmpty then
    .error "Current locale is required"
  else
    match locales.lookup currentLocale with
    | none =>
        .error ("Current locale \"" ++ currentLocale ++ "\" not found in locales configuration")
    | some currentLocaleData =>
        let items : List LanguageItem := locales.map (fun p =>
          { code := p.1
            label := if p.2.nativeName.isEmpty then p.2.name else p.2.nativeName
            flag := p.2.flag
            isActive := p.1 == currentLocale })
        let filteredItems :=
          if searchValue.isEmpty then items
          else items.filter (fun item =>
            strIncludes (jsToLower item.label) (jsToLower searchValue)
              || strIncludes (jsToLower item.code) (jsToLower searchValue))
        .ok
          { trigger :=
              { label :=
                  if currentLocaleData.nativeName.isEmpty then currentLocaleData.name
                  else currentLocaleData.nativeName
                flag := currentLocaleData.flag
                isOpen := isOpen }
            search := { placeholder := searchPlaceholder, value := searchValue }
            items := items
            filteredItems := filteredItems }

/-- The client-side state of the LanguageSwitcher component: the two useState
hooks isOpen and searchValue of LanguageSwitcher.tsx. -/
structure SwitcherState where
  isOpen : Bool
  searchValue : String
deriving Repr, DecidableEq, Inhabited

/-- The initial component state: useState(false) and useState(''). -/
def initSwitcherState : SwitcherState :=
  { isOpen := false, searchValue := "" }

/-- The onToggle handler of LanguageSwitcher.tsx: setIsOpen(prev to not prev),
and when the render-time isOpen was true (the dropdown is closing), also
setSearchValue(''). Both updates are batched within the one event. -/
def onToggle (s : SwitcherState) : SwitcherState :=
  { isOpen := !s.isOpen
    searchValue := if s.isOpen then "" else s.searchValue }

/-- The onSearch handler of LanguageSwitcher.tsx. -/
def onSearch (value : String) (s : SwitcherState) : SwitcherState :=
  { s with searchValue := value }

/-- pathname.split('/').filter(Boolean) from the onSelect handler: split the
current pathname on '/' and drop the falsy (empty) segments. -/
def pathSegments (pathname : String) : List String :=
  (jsSplitSlash pathname).filter (fun seg => !seg.isEmpty)

/-- The segment mutation of onSelect: when the list is non-empty and its
first segment is one of the locale keys, segments[0] = code; otherwise
segments.unshift(code). -/
def rewriteSegments (localeKeys : List String) (code : String) :
    List String → List String
  | [] => code :: []
  | s0 :: rest =>
      if localeKeys.contains s0 then code :: rest else code :: s0 :: rest

/-- The newPath computed by onSelect: '/' + segments.join('/') when the
mutated segment list is non-empty, and the fallback '/' + code otherwise. -/
def newPath (localeKeys : List String) (pathname code : String) : String :=
  let segments := rewriteSegments localeKeys code (pathSegments pathname)
  if segments.length > 0 then "/" ++ String.intercalate "/" segments
  else "/" ++ code

/-- The onSelect handler of LanguageSwitcher.tsx, as a function from the
selected code and the component state to the next state together with the
path passed to router.push (none when no navigation happens). Selecting the
current locale only closes the dropdown and clears the search. -/
def onSelect (locales : List (String × LocaleData)) (currentLocale pathname : String)
    (code : String) (_s : SwitcherState) : SwitcherState × Option String :=
  if code == currentLocale then
    ({ isOpen := false, searchValue := "" }, none)
  else
    ({ isOpen := false, searchValue := "" },
      some (newPath (locales.map Prod.fst) pathname code))

/-- handleClickOutside from the useEffect of LanguageSwitcher.tsx: when the
container ref is attached and the mousedown target is not contained in the
container, close the dropdown and clear the search; otherwise do nothing. -/
def handleClickOutside (refAttached insideContainer : Bool) (s : SwitcherState) :
    SwitcherState :=
  if refAttached && !insideContainer then
    { isOpen := false, searchValue := "" }
  else s

/-- The document-listener lifecycle state: whether the component is mounted,
the isOpen value the last committed render saw, and whether the mousedown
listener is currently attached to the document. -/
structure EffectState where
  mounted : Bool
  isOpen : Bool
  attached : Bool
deriving Repr, DecidableEq, Inhabited

/-- Running the cleanup of the previous effect run: the effect registered a
cleanup (removeEventListener) only when its isOpen was true; otherwise it
returned nothing and the attachment state is untouched. -/
def effectCleanup (prevOpen attached : Bool) : Bool :=
  if prevOpen then false else attached

/-- Running the effect body: addEventListener exactly when isOpen is true. -/
def effectBody (isOpen attached : Bool) : Bool :=
  if isOpen then true else attached

/-- The lifecycle events of the component that drive the useEffect with
dependency array [isOpen]: mounting (isOpen starts false from useState),
a committed state change of isOpen, and unmounting. -/
inductive CompEvent where
  | mount
  | setOpen (b : Bool)
  | unmount
deriving Repr, DecidableEq

/-- One lifecycle step, following the React semantics of
useEffect(..., [isOpen]): on mount the body runs; on a committed change of
isOpen the previous cleanup runs and then the body; when isOpen is unchanged
the effect does not re-run; on unmount the last cleanup runs. -/
def compStep (s : EffectState) (e : CompEvent) : EffectState :=
  match e with
  | .mount =>
      if s.mounted then s
      else { mounted := true, isOpen := false, attached := effectBody false s.attached }
  | .setOpen b =>
      if s.mounted then
        if s.isOpen == b then { s with isOpen := b }
        else
          { mounted := true, isOpen := b
            attached := effectBody b (effectCleanup s.isOpen s.attached) }
      else s
  | .unmount =>
      if s.mounted then
        { mounted := false, isOpen := s.isOpen
          attached := effectCleanup s.isOpen s.attached }
      else s

/-- The lifecycle state before the component ever mounted. -/
def initEffectState : EffectState :=
  { mounted := false, isOpen := false, attached := false }

/-- The lifecycle state reached after a sequence of component events. -/
def compRun (events : List CompEvent) : EffectState :=
  events.foldl compStep initEffectState

/-- TouchSupport from browser.tsx. -/
inductive TouchSupport where
  | hasTouch
  | noTouch
deriving Repr, DecidableEq

/-- MobileSupport from browser.tsx. -/
inductive MobileSupport where
  | hasMobile
  | noMobile
deriving Repr, DecidableEq

/-- BrowserName from browser.tsx. -/
inductive BrowserName where
  | Chrome
  | Edge
  | Safari
  | Firefox
  | Opera
  | Brave
  | Samsung
  | Unknown
deriving Repr, DecidableEq

/-- The parts of the navigator global read by browser.tsx. -/
structure NavigatorObj where
  userAgent : String
  maxTouchPoints : Nat
  platform : String
deriving Repr, DecidableEq

/-- The parts of the document global read by browser.tsx: whether the
ontouchstart and onpointerdown properties exist on documentElement. -/
structure DocumentObj where
  ontouchstartOnRoot : Bool
  onpointerdownOnRoot : Bool
deriving Repr, DecidableEq

/-- The parts of the window global read by browser.tsx. -/
structure WindowObj where
  innerWidth : Nat
deriving Repr, DecidableEq

/-- A browser environment: each global is present (some) or undefined
(none), as probed by the typeof checks in browser.tsx. -/
structure BrowserEnv where
  window : Option WindowObj
  document : Option DocumentObj
  navigator : Option NavigatorObj
deriving Repr, DecidableEq

/-- A server-side-rendering environment: every browser global undefined. -/
def ssrEnv : BrowserEnv :=
  { window := none, document := none, navigator := none }

/-- hasTouch from browser.tsx. When window or document is undefined the SSR
branch returns no-touch. Inside the try block, reading
navigator.maxTouchPoints with navigator undefined throws a ReferenceError,
and the catch returns no-touch. -/
def hasTouch (env : BrowserEnv) : TouchSupport :=
  match env.window, env.document with
  | some _, some doc =>
      match env.navigator with
      | none => .noTouch
      | some nav =>
          let hasTouchEvents := doc.ontouchstartOnRoot
          let hasPointerEvents := doc.onpointerdownOnRoot
          let hasTouchPoints := nav.maxTouchPoints > 0
          if hasTouchEvents || hasPointerEvents || hasTouchPoints then .hasTouch
          else .noTouch
  | _, _ => .noTouch

/-- The test of the case-insensitive mobile RegExp of hasMobile, an
alternation of literal substrings. -/
def mobileRegexTest (ua : String) : Bool :=
  let l := jsToLower ua
  strIncludes l "android" || strIncludes l "webos" || strIncludes l "iphone"
    || strIncludes l "ipad" || strIncludes l "ipod" || strIncludes l "blackberry"
    || strIncludes l "iemobile" || strIncludes l "opera mini"
    || strIncludes l "windows phone" || strIncludes l "mobile"

/-- The Android-with-negative-lookahead alternative of the tablet RegExp:
some occurrence of the pattern is not followed anywhere later by the
lookahead word. Both lists are already lowercased by the caller. -/
def occursWithoutLater : List Char → List Char → List Char → Bool
  | [], pat, _ => beginsWith [] pat
  | s@(_ :: t), pat, banned =>
      (beginsWith s pat && !containsSub (s.drop pat.length) banned)
        || occursWithoutLater t pat banned

/-- The test of the case-insensitive tablet RegExp of hasMobile:
iPad, or Android not followed later by Mobile (the negative lookahead), or
Tablet. -/
def tabletRegexTest (ua : String) : Bool :=
  let l := jsToLower ua
  strIncludes l "ipad"
    || occursWithoutLater l.toList "android".toList "mobile".toList
    || strIncludes l "tablet"

/-- hasMobile from browser.tsx. When window or navigator is undefined the
SSR branch returns no-mobile. window.innerWidth is truthy exactly when
non-zero. -/
def hasMobile (env : BrowserEnv) : MobileSupport :=
  match env.window, env.navigator with
  | some w, some nav =>
      let isMobileUA := mobileRegexTest nav.userAgent
      let isTablet := tabletRegexTest nav.userAgent
      let isNarrowViewport := if w.innerWidth != 0 then w.innerWidth ≤ 768 else false
      let isTouchDevice := hasTouch env == .hasTouch
      if isMobileUA || isTablet || (isNarrowViewport && isTouchDevice) then .hasMobile
      else .noMobile
  | _, _ => .noMobile

/-- isUserAgent from browser.tsx: false when navigator is undefined or the
argument is falsy (empty); otherwise a case-insensitive substring test
against navigator.userAgent. -/
def isUserAgent (env : BrowserEnv) (agent : String) : Bool :=
  match env.navigator with
  | none => false
  | some nav =>
      if agent.isEmpty then false
      else strIncludes (jsToLower nav.userAgent) (jsToLower agent)

/-- getUserAgent from browser.tsx: Unknown when navigator is undefined,
otherwise the first matching branch over the lowercased user agent. -/
def getUserAgent (env : BrowserEnv) : BrowserName :=
  match env.navigator with
  | none => .Unknown
  | some nav =>
      let userAgent := jsToLower nav.userAgent
      if strIncludes userAgent "brave" then .Brave
      else if strIncludes userAgent "samsung" then .Samsung
      else if strIncludes userAgent "opr" || strIncludes userAgent "opera" then .Opera
      else if strIncludes userAgent "edg" then .Edge
      else if strIncludes userAgent "chrome" then .Chrome
      else if strIncludes userAgent "safari" && !strIncludes userAgent "chrome" then .Safari
      else if strIncludes userAgent "firefox" then .Firefox
      else .Unknown

/-- The claimed URL rewrite of C3, written from the specification words:
split the current pathname on '/', drop empty segments; if the first
remaining segment is a key of the locales record replace it by the selected
code, otherwise prepend the selected code; the result is '/' followed by
the segments joined with '/'. -/
def specRewritePath (localeKeys : List String) (pathname code : String) : String :=
  let segs := (jsSplitSlash pathname).filter (fun seg => seg ≠ "")
  let rewritten :=
    match segs with
    | [] => [code]
    | s0 :: rest => if s0 ∈ localeKeys then code :: rest else code :: s0 :: rest
  "/" ++ String.intercalate "/" rewritten

/-! Concrete data used by the witnesses. -/

/-- A locale with a non-empty native name. -/
def enLocale : LocaleData :=
  { name := "English", nativeName := "English", flag := "flag-en", rtl := false
    dateFormat := "MM/DD/YYYY", numberFormat := "en-US" }

/-- A locale with an empty native name, to exercise the name fallback. -/
def viLocale : LocaleData :=
  { name := "Vietnamese", nativeName := "", flag := "flag-vi", rtl := false
    dateFormat := "DD/MM/YYYY", numberFormat := "vi-VN" }

/-- A two-locale configuration with the second locale current. -/
def demoConfig : LanguageSwitcherConfig :=
  { locales := [("en", enLocale), ("vi", viLocale)], currentLocale := "vi" }

/-- The view produced by buildLanguageView on demoConfig. -/
def demoView : LanguageView :=
  { trigger := { label := "Vietnamese", flag := "flag-vi", isOpen := false }
    search := { placeholder := "Search", value := "" }
    items :=
      [{ code := "en", label := "English", flag := "flag-en", isActive := false },
       { code := "vi", label := "Vietnamese", flag := "flag-vi", isActive := true }]
    filteredItems :=
      [{ code := "en", label := "English", flag := "flag-en", isActive := false },
       { code := "vi", label := "Vietnamese", flag := "flag-vi", isActive := true }] }

/-! Helper lemmas. -/

theorem beginsWith_nil (s : List Char) : beginsWith s [] = true := by
  cases s <;> rfl

theorem containsSub_nil (s : List Char) : containsSub s [] = true := by
  cases s <;> simp [containsSub, beginsWith_nil]

theorem strIncludes_empty_right (s : String) : strIncludes s "" = true := by
  simp [strIncludes, containsSub_nil]

theorem jsToLower_empty : jsToLower "" = "" := rfl

theorem lookup_eq_none_iff {α β : Type} [BEq α] [LawfulBEq α]
    (k : α) (l : List (α × β)) :
    l.lookup k = none ↔ k ∉ l.map Prod.fst := by
  induction l with
  | nil => simp [List.lookup]
  | cons p t ih =>
    obtain ⟨a, b⟩ := p
    rw [List.lookup_cons]
    by_cases h : k = a
    · subst h; simp
    · simp [h, ih, beq_false_of_ne h]

/-- Whatever the incoming segment list, the mutated segment list of onSelect
starts with the selected code. -/
theorem rewriteSegments_eq_cons (ks : List String) (code : String) (l : List String) :
    ∃ rest, rewriteSegments ks code l = code :: rest := by
  cases l with
  | nil => exact ⟨[], rfl⟩
  | cons s0 rest =>
    by_cases h : s0 ∈ ks
    · exact ⟨rest, by simp [rewriteSegments, h]⟩
    · exact ⟨s0 :: rest, by simp [rewriteSegments, h]⟩

/-- The source path computation of onSelect agrees with the specification
wording of the rewrite. -/
theorem newPath_eq_specRewritePath (ks : List String) (pathname code : String) :
    newPath ks pathname code = specRewritePath ks pathname code := by
  unfold newPath specRewritePath pathSegments
  have hfilter : (jsSplitSlash pathname).filter (fun seg => !seg.isEmpty)
      = (jsSplitSlash pathname).filter (fun seg => decide ¬(seg = "")) := by
    apply List.filter_congr
    intro a _
    by_cases ha : a = ""
    · subst ha
      have hE : ("" : String).isEmpty = true := rfl
      simp [hE]
    · have hE : a.isEmpty = false := by
        rw [Bool.eq_false_iff]
        intro hc
        exact ha ((String.isEmpty_iff a).mp hc)
      simp [ha, hE]
  rw [hfilter]
  cases hsegs : (jsSplitSlash pathname).filter (fun seg => decide ¬(seg = "")) with
  | nil => simp [rewriteSegments]
  | cons s0 rest =>
    by_cases hmem : s0 ∈ ks
    · simp [rewriteSegments, hmem]
    · simp [rewriteSegments, hmem]

/-- An if-then-else on String.isEmpty is the if-then-else on equality with
the empty string. -/
theorem ite_isEmpty_eq_ite_eq {γ : Type} (s : String) (a b : γ) :
    (if s.isEmpty then a else b) = (if s = "" then a else b) := by
  by_cases h : s = ""
  · subst h
    have hE : ("" : String).isEmpty = true := rfl
    simp [hE]
  · have hE : s.isEmpty = false := by
      rw [Bool.eq_false_iff]
      intro hc
      exact h ((String.isEmpty_iff s).mp hc)
    simp [hE, h]

/-- The codes of the active items among the items built from the locales
list are the keys equal to the current locale. -/
theorem mkItems_active_codes (cur : String) (l : List (String × LocaleData)) :
    ((l.map (fun p =>
        ({ code := p.1
           label := if p.2.nativeName.isEmpty then p.2.name else p.2.nativeName
           flag := p.2.flag
           isActive := p.1 == cur } : LanguageItem))).filter
      (fun it => it.isActive)).map LanguageItem.code
      = (l.map Prod.fst).filter (fun k => k == cur) := by
  induction l with
  | nil => rfl
  | cons p t ih =>
    by_cases hp : p.1 = cur <;> simp [List.filter_cons, hp, ih]

/-- In a duplicate-free list of keys that contains the key, the sublist of
elements equal to the key is the one-element list. -/
theorem filter_beq_of_nodup (cur : String) (ks : List String)
    (hnd : ks.Nodup) (hmem : cur ∈ ks) :
    ks.filter (fun k => k == cur) = [cur] := by
  induction ks with
  | nil => cases hmem
  | cons a t ih =>
    obtain ⟨ha, ht⟩ := List.nodup_cons.mp hnd
    by_cases hac : a = cur
    · subst hac
      have hnil : t.filter (fun k => k == a) = [] := by
        rw [List.filter_eq_nil_iff]
        intro b hb hbeq
        have hba : b = a := by simpa using hbeq
        subst hba
        exact ha hb
      simp [List.filter_cons, hnil]
    · have hmem2 : cur ∈ t := by
        rcases List.mem_cons.mp hmem with hh | hh
        · exact absurd hh.symm hac
        · exact hh
      simp [List.filter_cons, hac, ih ht hmem2]

/-- Inversion of a successful buildLanguageView: the validation checks
passed, the current locale resolves, and every field of the view is the one
computed by the source. -/
theorem buildLanguageView_ok_cases (c : LanguageSwitcherConfig) (v : LanguageView)
    (h : buildLanguageView c = Except.ok v) :
    ∃ d, c.locales ≠ [] ∧ c.currentLocale ≠ "" ∧
      c.locales.lookup c.currentLocale = some d ∧
      v.items = c.locales.map (fun p =>
        ({ code := p.1
           label := if p.2.nativeName.isEmpty then p.2.name else p.2.nativeName
           flag := p.2.flag
           isActive := p.1 == c.currentLocale } : LanguageItem)) ∧
      v.filteredItems = (if c.searchValue.isEmpty then v.items
        else v.items.filter (fun item =>
          strIncludes (jsToLower item.label) (jsToLower c.searchValue)
            || strIncludes (jsToLower item.code) (jsToLower c.searchValue))) ∧
      v.trigger = { label := if d.nativeName.isEmpty then d.name else d.nativeName
                    flag := d.flag, isOpen := c.isOpen } ∧
      v.search = { placeholder := c.searchPlaceholder, value := c.searchValue } := by
  simp only [buildLanguageView] at h
  split at h
  · exact absurd h (by simp)
  · rename_i hne
    split at h
    · exact absurd h (by simp)
    · rename_i hce
      split at h
      · exact absurd h (by simp)
      · rename_i d hl
        cases h
        refine ⟨d, ?_, ?_, hl, rfl, rfl, rfl, rfl⟩
        · intro hc
          exact hne (by simp [hc])
        · intro hc
          apply hce
          rw [hc]
          rfl

/-! The claims. -/

/-- C1: buildLanguageView throws an error if and only if validation fails:
it throws when the locales record is empty, when currentLocale is empty, or
when currentLocale is not a key of the locales record; every config passing
these checks produces a LanguageView without an error. -/
theorem buildLanguageView_error_iff (c : LanguageSwitcherConfig) :
    (∃ e, buildLanguageView c = Except.error e) ↔
      (c.locales = [] ∨ c.currentLocale = ""
        ∨ c.currentLocale ∉ c.locales.map Prod.fst) := by
  simp only [buildLanguageView]
  by_cases h1 : c.locales = []
  · simp [h1]
  · have h1b : c.locales.isEmpty = false := by
      rw [Bool.eq_false_iff]
      intro hc
      exact h1 (List.isEmpty_iff.mp hc)
    by_cases h2 : c.currentLocale = ""
    · have hE : ("" : String).isEmpty = true := rfl
      simp [h1b, h2, hE]
    · have h2b : c.currentLocale.isEmpty = false := by
        rw [Bool.eq_false_iff]
        intro hc
        exact h2 ((String.isEmpty_iff _).mp hc)
      cases hl : c.locales.lookup c.currentLocale with
      | none =>
          have hmem := (lookup_eq_none_iff c.currentLocale c.locales).mp hl
          simp [h1b, h2b, hl, h1, h2, hmem]
      | some d =>
          have hmem : c.currentLocale ∈ c.locales.map Prod.fst := by
            by_contra hc
            have hn := (lookup_eq_none_iff c.currentLocale c.locales).mpr hc
            rw [hl] at hn
            simp at hn
          simp [h1b, h2b, hl, h1, h2, hmem]

theorem buildLanguageView_error_iff_witness :
    ∃ e, buildLanguageView { locales := [], currentLocale := "en" } = Except.error e :=
  (buildLanguageView_error_iff { locales := [], currentLocale := "en" }).mpr (Or.inl rfl)

/-- C2: for every config accepted by buildLanguageView, filteredItems is
exactly the sublist of items whose label or code contains the search value
as a case-insensitive substring, in the order of items, and when the search
value is empty filteredItems equals items. -/
theorem buildLanguageView_filteredItems_spec (c : LanguageSwitcherConfig)
    (v : LanguageView) (h : buildLanguageView c = Except.ok v) :
    v.filteredItems = v.items.filter (fun item =>
        strIncludes (jsToLower item.label) (jsToLower c.searchValue)
          || strIncludes (jsToLower item.code) (jsToLower c.searchValue))
    ∧ (c.searchValue = "" → v.filteredItems = v.items) := by
  obtain ⟨d, _, _, _, _, hfilt, _, _⟩ := buildLanguageView_ok_cases c v h
  by_cases hsv : c.searchValue = ""
  · rw [hfilt, hsv]
    have hE : ("" : String).isEmpty = true := rfl
    have hall : v.items.filter (fun item =>
        strIncludes (jsToLower item.label) (jsToLower "")
          || strIncludes (jsToLower item.code) (jsToLower "")) = v.items := by
      rw [List.filter_eq_self]
      intro a _
      simp [jsToLower_empty, strIncludes_empty_right]
    simp [hE, hall]
  · have hsb : c.searchValue.isEmpty = false := by
      rw [Bool.eq_false_iff]
      intro hc
      exact hsv ((String.isEmpty_iff _).mp hc)
    rw [hfilt]
    simp [hsb, hsv]

theorem buildLanguageView_filteredItems_spec_witness :
    (buildLanguageView { demoConfig with searchValue := "VIE" })
        = Except.ok { demoView with
            search := { placeholder := "Search", value := "VIE" }
            filteredItems := [{ code := "vi", label := "Vietnamese"
                                flag := "flag-vi", isActive := true }] }
      ∧ ({ demoView with
            search := { placeholder := "Search", value := "VIE" }
            filteredItems := [{ code := "vi", label := "Vietnamese"
                                flag := "flag-vi", isActive := true }]
              : LanguageView }).filteredItems
        = demoView.items.filter (fun item =>
            strIncludes (jsToLower item.label) (jsToLower "VIE")
              || strIncludes (jsToLower item.code) (jsToLower "VIE")) := by
  refine ⟨rfl, ?_⟩
  exact (buildLanguageView_filteredItems_spec { demoConfig with searchValue := "VIE" }
    _ rfl).1

/-- C3: when a language with code different from currentLocale is selected,
the navigated path equals the specification rewrite: split the pathname on
slash, drop empty segments, replace the first segment by the code when it
is a locale key and prepend the code otherwise, then join behind a leading
slash. -/
theorem onSelect_navigates_to_spec_path (locales : List (String × LocaleData))
    (currentLocale pathname code : String) (s : SwitcherState)
    (h : code ≠ currentLocale) :
    (onSelect locales currentLocale pathname code s).2 =
      some (specRewritePath (locales.map Prod.fst) pathname code) := by
  have hb : (code == currentLocale) = false := by
    rw [Bool.eq_false_iff]
    intro hc
    exact h (eq_of_beq hc)
  simp [onSelect, hb, newPath_eq_specRewritePath]

theorem onSelect_navigates_to_spec_path_witness :
    (onSelect [("en", enLocale), ("vi", viLocale)] "en" "/en/about" "vi"
        initSwitcherState).2
      = some (specRewritePath ["en", "vi"] "/en/about" "vi") :=
  onSelect_navigates_to_spec_path [("en", enLocale), ("vi", viLocale)] "en"
    "/en/about" "vi" initSwitcherState (by decide)

/-- C9: for every pathname and selected code different from currentLocale,
the pushed path is a leading slash followed by the selected code as first
segment; the mutated segment list always starts with the code, so the
fallback branch for an empty joined list is unreachable. -/
theorem onSelect_path_first_segment (locales : List (String × LocaleData))
    (currentLocale pathname code : String) (s : SwitcherState)
    (h : code ≠ currentLocale) :
    ∃ rest, rewriteSegments (locales.map Prod.fst) code (pathSegments pathname)
        = code :: rest
      ∧ (onSelect locales currentLocale pathname code s).2
          = some ("/" ++ String.intercalate "/" (code :: rest)) := by
  obtain ⟨rest, hr⟩ :=
    rewriteSegments_eq_cons (locales.map Prod.fst) code (pathSegments pathname)
  refine ⟨rest, hr, ?_⟩
  have hb : (code == currentLocale) = false := by
    rw [Bool.eq_false_iff]
    intro hc
    exact h (eq_of_beq hc)
  simp [onSelect, hb, newPath, hr]

theorem onSelect_path_first_segment_witness :
    ∃ rest, rewriteSegments (([("en", enLocale), ("vi", viLocale)]).map Prod.fst)
        "vi" (pathSegments "/") = "vi" :: rest
      ∧ (onSelect [("en", enLocale), ("vi", viLocale)] "en" "/" "vi"
            initSwitcherState).2
          = some ("/" ++ String.intercalate "/" ("vi" :: rest)) :=
  onSelect_path_first_segment [("en", enLocale), ("vi", viLocale)] "en" "/" "vi"
    initSwitcherState (by decide)

/-- C10: selecting the code that is already the current locale closes the
dropdown and clears the search but performs no navigation: no path is
passed to router.push. -/
theorem onSelect_current_locale_no_push (locales : List (String × LocaleData))
    (currentLocale pathname code : String) (s : SwitcherState)
    (h : code = currentLocale) :
    onSelect locales currentLocale pathname code s
      = ({ isOpen := false, searchValue := "" }, none) := by
  simp [onSelect, h]

theorem onSelect_current_locale_no_push_witness :
    onSelect [("en", enLocale), ("vi", viLocale)] "vi" "/vi/about" "vi"
        { isOpen := true, searchValue := "engl" }
      = ({ isOpen := false, searchValue := "" }, none) :=
  onSelect_current_locale_no_push [("en", enLocale), ("vi", viLocale)] "vi"
    "/vi/about" "vi" { isOpen := true, searchValue := "engl" } rfl

/-- C4: while the dropdown is open, a mousedown outside the container (with
the container ref attached) closes the dropdown and clears the search value,
and a mousedown inside the container changes nothing. -/
theorem handleClickOutside_spec (s : SwitcherState) (inside : Bool)
    (_hopen : s.isOpen = true) :
    (inside = false → handleClickOutside true inside s
        = { isOpen := false, searchValue := "" })
    ∧ (inside = true → handleClickOutside true inside s = s) := by
  constructor <;> intro h <;> simp [handleClickOutside, h]

theorem handleClickOutside_spec_witness :
    handleClickOutside true false { isOpen := true, searchValue := "qu" }
        = { isOpen := false, searchValue := "" }
      ∧ handleClickOutside true true { isOpen := true, searchValue := "qu" }
        = { isOpen := true, searchValue := "qu" } :=
  ⟨(handleClickOutside_spec { isOpen := true, searchValue := "qu" } false rfl).1 rfl,
   (handleClickOutside_spec { isOpen := true, searchValue := "qu" } true rfl).2 rfl⟩

/-- C5: onToggle flips isOpen; from an open state it closes and clears the
search value, from a closed state it opens and leaves the search value
unchanged. -/
theorem onToggle_flips (s : SwitcherState) :
    (s.isOpen = true → onToggle s = { isOpen := false, searchValue := "" })
    ∧ (s.isOpen = false → onToggle s = { isOpen := true, searchValue := s.searchValue }) := by
  constructor <;> intro h <;> simp [onToggle, h]

theorem onToggle_flips_witness :
    onToggle { isOpen := true, searchValue := "qu" }
        = { isOpen := false, searchValue := "" }
      ∧ onToggle { isOpen := false, searchValue := "qu" }
        = { isOpen := true, searchValue := "qu" } :=
  ⟨(onToggle_flips { isOpen := true, searchValue := "qu" }).1 rfl,
   (onToggle_flips { isOpen := false, searchValue := "qu" }).2 rfl⟩

/-- C6: every environment-detection helper returns its safe default when the
browser globals it guards on are unavailable: hasTouch gives no-touch
without window or document, hasMobile gives no-mobile without window or
navigator, and without navigator isUserAgent is false and getUserAgent is
Unknown. -/
theorem browser_helpers_ssr_defaults (env : BrowserEnv) :
    ((env.window = none ∨ env.document = none) → hasTouch env = TouchSupport.noTouch)
    ∧ ((env.window = none ∨ env.navigator = none) → hasMobile env = MobileSupport.noMobile)
    ∧ (env.navigator = none →
        (∀ agent, isUserAgent env agent = false)
          ∧ getUserAgent env = BrowserName.Unknown) := by
  obtain ⟨w, d, n⟩ := env
  refine ⟨fun h => ?_, fun h => ?_, fun h => ?_⟩
  · rcases h with h | h
    · subst h
      cases d <;> cases n <;> rfl
    · subst h
      cases w <;> cases n <;> rfl
  · rcases h with h | h
    · subst h
      cases d <;> cases n <;> rfl
    · subst h
      cases w <;> cases d <;> rfl
  · subst h
    exact ⟨fun agent => rfl, rfl⟩

theorem browser_helpers_ssr_defaults_witness :
    hasTouch ssrEnv = TouchSupport.noTouch
    ∧ hasMobile ssrEnv = MobileSupport.noMobile
    ∧ isUserAgent ssrEnv "chrome" = false
    ∧ getUserAgent ssrEnv = BrowserName.Unknown :=
  ⟨(browser_helpers_ssr_defaults ssrEnv).1 (Or.inl rfl),
   (browser_helpers_ssr_defaults ssrEnv).2.1 (Or.inl rfl),
   ((browser_helpers_ssr_defaults ssrEnv).2.2 rfl).1 "chrome",
   ((browser_helpers_ssr_defaults ssrEnv).2.2 rfl).2⟩

/-- C7: in every lifecycle state reachable by mount, committed isOpen
changes and unmount, the document mousedown listener is attached exactly
when the component is mounted with the dropdown open; in particular no
listener is attached while the dropdown is closed or after unmount. -/
theorem listener_attached_iff_open (events : List CompEvent) :
    (compRun events).attached
      = ((compRun events).mounted && (compRun events).isOpen) := by
  have step : ∀ (s : EffectState), s.attached = (s.mounted && s.isOpen) →
      ∀ e, (compStep s e).attached
        = ((compStep s e).mounted && (compStep s e).isOpen) := by
    intro s hs e
    obtain ⟨sm, so, sa⟩ := s
    simp only at hs
    cases e with
    | mount =>
        cases sm <;> cases so <;> simp_all [compStep, effectBody, effectCleanup]
    | setOpen b =>
        cases sm <;> cases so <;> cases b <;>
          simp_all [compStep, effectBody, effectCleanup]
    | unmount =>
        cases sm <;> cases so <;> simp_all [compStep, effectBody, effectCleanup]
  have main : ∀ (es : List CompEvent) (s : EffectState),
      s.attached = (s.mounted && s.isOpen) →
      (es.foldl compStep s).attached
        = ((es.foldl compStep s).mounted && (es.foldl compStep s).isOpen) := by
    intro es
    induction es with
    | nil => intro s hs; exact hs
    | cons e t ih => intro s hs; exact ih (compStep s e) (step s hs e)
  exact main events initEffectState rfl

/-- C8: for every accepted config with duplicate-free keys, the view has one
item per locale key in order, exactly one active item, namely the current
locale, each item labelled by the native name with fallback to the name,
and the trigger carrying the current locale's label and flag. -/
theorem buildLanguageView_items_invariants (c : LanguageSwitcherConfig)
    (v : LanguageView) (hnd : (c.locales.map Prod.fst).Nodup)
    (h : buildLanguageView c = Except.ok v) :
    v.items.map LanguageItem.code = c.locales.map Prod.fst
    ∧ (v.items.filter (fun it => it.isActive)).map LanguageItem.code
        = [c.currentLocale]
    ∧ (∀ p ∈ c.locales, ∃ it, it ∈ v.items ∧ it.code = p.1 ∧ it.flag = p.2.flag
        ∧ it.label = (if p.2.nativeName = "" then p.2.name else p.2.nativeName))
    ∧ (∀ d, c.locales.lookup c.currentLocale = some d →
        v.trigger.label = (if d.nativeName = "" then d.name else d.nativeName)
          ∧ v.trigger.flag = d.flag) := by
  obtain ⟨d, hne, hce, hl, hitems, hfilt, htrig, hsearch⟩ :=
    buildLanguageView_ok_cases c v h
  have hmem : c.currentLocale ∈ c.locales.map Prod.fst := by
    by_contra hc
    have hn := (lookup_eq_none_iff c.currentLocale c.locales).mpr hc
    rw [hl] at hn
    simp at hn
  refine ⟨?_, ?_, ?_, ?_⟩
  · rw [hitems, List.map_map]
    rfl
  · rw [hitems, mkItems_active_codes,
      filter_beq_of_nodup c.currentLocale (c.locales.map Prod.fst) hnd hmem]
  · intro p hp
    rw [hitems]
    refine ⟨_, List.mem_map_of_mem _ hp, rfl, rfl, ?_⟩
    exact ite_isEmpty_eq_ite_eq p.2.nativeName p.2.name p.2.nativeName
  · intro d2 hd2
    rw [hl] at hd2
    cases hd2
    rw [htrig]
    refine ⟨?_, rfl⟩
    exact ite_isEmpty_eq_ite_eq d.nativeName d.name d.nativeName

theorem buildLanguageView_items_invariants_witness :
    (demoView.items.filter (fun it => it.isActive)).map LanguageItem.code
        = [demoConfig.currentLocale]
      ∧ demoView.items.map LanguageItem.code = demoConfig.locales.map Prod.fst := by
  have h := buildLanguageView_items_invariants demoConfig demoView (by decide) rfl
  exact ⟨h.2.1, h.1⟩

end NextStaticWeb
